import Mathlib

/-!
# Verification of the MOD-to-WAV tracker (`tracker.go`)

A shallow embedding of the data model and the algorithms of the tracker
program: the note/channel model, the sequencer control step of
`generate_wav` (note triggers, the three control effects, row advance),
the row-duration formula, the resampler arithmetic of `Sample.MakeWav`
and `byte_to_int16`, and the size-validation and table-loading logic of
`load_modfile` / `expected_filesizes`.

Machine integers are modelled as `Nat`/`Int` with explicit `% 2^32`
where 32-bit overflow can occur; the `float32`/`float64` computations of
the source are modelled in exact rational arithmetic (`ℚ`), with the
final integer conversions modelled as truncation toward zero, matching
Go's float-to-integer conversion on in-range values.
-/

namespace Tracker

/-- Effect code for a position jump (`tracker.go` line 196). -/
def POSITION_JUMP : Nat := 11

/-- Effect code for a pattern break (`tracker.go` line 197). -/
def PATTERN_BREAK : Nat := 13

/-- Effect code for set speed (`tracker.go` line 198). -/
def SET_SPEED : Nat := 15

/-- One note event, `type Note` (`tracker.go` lines 81-86).  All four
fields are small non-negative byte-derived values, so they are `Nat`. -/
structure Note where
  Sample : Nat
  Period : Nat
  Effect : Nat
  Parameter : Nat
deriving Repr, DecidableEq

/-- `Note.ParameterLeft` (`tracker.go` lines 91-93): the high nibble of
the parameter byte (`self.Parameter >> 4`). -/
def Note.ParameterLeft (self : Note) : Nat := self.Parameter / 16

/-- `Note.ParameterRight` (`tracker.go` lines 95-97): the low nibble of
the parameter byte (`self.Parameter & 0x0f`). -/
def Note.ParameterRight (self : Note) : Nat := self.Parameter % 16

/-- The per-channel playback state, `type Channel` (`tracker.go` lines
101-106): the active instrument slot (the embedded `Note`'s `Sample`
field, which is the only embedded field `generate_wav` writes), the
current pitch period (0 = silent) and the playback position within the
resampled waveform.  The `Volume` field is never used by the program
and is omitted. -/
structure Channel where
  Sample : Nat
  Period : Nat
  SamplePosition : Nat
deriving Repr, DecidableEq

/-- The note-trigger step of `generate_wav` (`tracker.go` lines 603-609):

```
if note.Period != 0 {
    channels[ch].Period = note.Period
    channels[ch].SamplePosition = 0
    if note.Sample != 0 {
        channels[ch].Sample = note.Sample
    }
}
```

Note that the instrument-slot assignment is nested inside the
`note.Period != 0` branch. -/
def apply_note_trigger (c : Channel) (note : Note) : Channel :=
  if note.Period ≠ 0 then
    { c with
      Period := note.Period
      SamplePosition := 0
      Sample := if note.Sample ≠ 0 then note.Sample else c.Sample }
  else
    c

/-- The per-channel trigger applied across one pattern row
(`tracker.go` line 602, `for ch, note := range line`). -/
def trigger_line (channels : List Channel) (line : List Note) : List Channel :=
  List.zipWith apply_note_trigger channels line

/-- The control state of the sequencing loop of `generate_wav`
(`tracker.go` lines 568-584): order-table index, row number, latched
and next tempo values, and the pending break/jump schedule.  The
per-channel playback state and the audio buffers are kept separately:
the rendering inner loop (lines 654-697) reads but never writes any of
these control fields. -/
structure SeqState where
  table_index : Nat
  linenum : Nat
  ticks_per_line : Nat
  so_called_bpm : Nat
  next_ticks_per_line : Nat
  next_bpm : Nat
  position_jump_happening : Bool
  position_jump_arg : Nat
  pattern_break_happening : Bool
  pattern_break_arg : Nat
deriving Repr, DecidableEq

/-- The initial control state of `generate_wav` (`tracker.go` lines
568-584): index 0, row 0, 6 ticks per row, tempo 125, nothing
scheduled. -/
def init_seq_state : SeqState :=
  { table_index := 0
    linenum := 0
    ticks_per_line := 6
    so_called_bpm := 125
    next_ticks_per_line := 6
    next_bpm := 125
    position_jump_happening := false
    position_jump_arg := 0
    pattern_break_happening := false
    pattern_break_arg := 0 }

/-- The effect scan for one note of the current row (`tracker.go` lines
613-645): the three `if note.Effect == ...` blocks for `SET_SPEED`,
`POSITION_JUMP` and `PATTERN_BREAK`.  The `info(...)` calls of the
source only print diagnostics and change no state. -/
def scan_note (s : SeqState) (note : Note) : SeqState :=
  let s1 :=
    if note.Effect = SET_SPEED then
      let val := note.Parameter
      if val = 0 then s
      else if val ≤ 31 then { s with next_ticks_per_line := val }
      else { s with next_bpm := val }
    else s
  let s2 :=
    if note.Effect = POSITION_JUMP then
      if s1.table_index < note.Parameter then
        { s1 with position_jump_happening := true, position_jump_arg := note.Parameter }
      else s1
    else s1
  if note.Effect = PATTERN_BREAK then
    { s2 with
      pattern_break_happening := true
      pattern_break_arg := note.ParameterLeft * 10 + note.ParameterRight }
  else s2

/-- The effect scan over a whole row, channel by channel in channel
order (`tracker.go` line 602, `for ch, note := range line`). -/
def scan_line (s : SeqState) (line : List Note) : SeqState :=
  line.foldl scan_note s

/-- The end-of-row advance of `generate_wav` (`tracker.go` lines
699-722): advance the row number, latch the next tempo values, apply a
pending pattern break, then a pending position jump, then the natural
64-row wrap. -/
def advance (s : SeqState) : SeqState :=
  let s1 :=
    { s with
      linenum := s.linenum + 1
      ticks_per_line := s.next_ticks_per_line
      so_called_bpm := s.next_bpm }
  let s2 :=
    if s1.pattern_break_happening then
      { s1 with
        table_index := s1.table_index + 1
        linenum := s1.pattern_break_arg
        pattern_break_happening := false
        position_jump_happening := false }
    else s1
  let s3 :=
    if s2.position_jump_happening then
      { s2 with
        table_index := s2.position_jump_arg
        linenum := 0
        pattern_break_happening := false
        position_jump_happening := false }
    else s2
  if 64 ≤ s3.linenum then
    { s3 with linenum := 0, table_index := s3.table_index + 1 }
  else s3

/-! ## Row duration (`tracker.go` lines 650-652)

```
lines_per_minute := 24.0 * float32(so_called_bpm) / float32(ticks_per_line)
seconds_per_line := (1.0 / lines_per_minute) * 60.0
frames_needed := uint32(44100.0 * seconds_per_line)
```

The `float32` arithmetic is modelled exactly in `ℚ`; the `uint32(...)`
conversion truncates its (non-negative) argument, which is `Nat.floor`
in the rational model. -/

/-- `byte_to_int16` (`tracker.go` lines 176-187): reinterpret the byte
as signed (values above 127 represent `value - 256`) and scale it to
`int16` range via `s*256 + s + 128`.  For every byte the result lies in
`[-32768, 32767]`, so the source's `int16` arithmetic never overflows
and `Int` models it exactly. -/
def byte_to_int16 (val : Nat) : Int :=
  let val_as_int16 : Int := if 127 < (val : Int) then (val : Int) - 256 else (val : Int)
  val_as_int16 * 256 + val_as_int16 + 128

/-- `2^32`, the modulus of Go's `uint32` arithmetic. -/
def U32 : Nat := 4294967296

/-- `freq` of `Sample.MakeWav` (`tracker.go` line 144):
`3563219 / uint32(period)`, integer division.  (For `period = 0` the Go
program would panic with a division by zero; `Nat` division returns 0
there, and every theorem below restricts to nonzero periods.) -/
def freq_of_period (period : Nat) : Nat :=
  3563219 / period

/-- `new_frame_count` of `Sample.MakeWav` (`tracker.go` line 145):
`44100 * uint32(len(self.Data)) / freq`.  The 32-bit product can wrap,
hence the explicit `% 2^32`; the quotient is then below `2^32`. -/
def new_frame_count (dataLen period : Nat) : Nat :=
  44100 * dataLen % U32 / freq_of_period period

/-- Go's `uint32` subtraction `a - b` modelled on `Nat`, wrapping
modulo `2^32` (both arguments already reduced mod `2^32`). -/
def u32_sub (a b : Nat) : Nat :=
  (a % U32 + (U32 - b % U32)) % U32

/-- Truncation of a rational toward zero: the behaviour of Go's
float-to-integer conversions on in-range values. -/
def trunc_toward_zero (q : ℚ) : Int :=
  if 0 ≤ q then ⌊q⌋ else -⌊-q⌋

/-- The value written by `Sample.MakeWav` for an interior output frame
`n` (`tracker.go` lines 155-171), with `Data` the raw waveform bytes
and `nfc` the computed `new_frame_count`:

```
index_f := (float64(n) / float64(new_frame_count - 1)) * float64(len(self.Data) - 1)
index := uint32(index_f)
interpolate_fraction := index_f - float64(index)
old_val := byte_to_int16(self.Data[index])
old_val_next := byte_to_int16(self.Data[index] + 1)
diff := old_val_next - old_val
new_val_f := float64(old_val) + float64(diff) * interpolate_fraction
new_val := int16(new_val_f)
```

Note that `old_val_next` converts `self.Data[index] + 1` — the byte
value at `index`, plus one, wrapping as a byte — not the byte at
`index + 1`.  The `float64` arithmetic is modelled exactly in `ℚ`. -/
def makewav_frame_val (Data : List Nat) (nfc n : Nat) : Int :=
  let index_f : ℚ := ((n : ℚ) / ((nfc - 1 : Nat) : ℚ)) * ((Data.length - 1 : Nat) : ℚ)
  let index : Nat := ⌊index_f⌋₊
  let interpolate_fraction : ℚ := index_f - (index : ℚ)
  let old_val : Int := byte_to_int16 (Data.getD index 0)
  let old_val_next : Int := byte_to_int16 ((Data.getD index 0 + 1) % 256)
  let diff : Int := old_val_next - old_val
  let new_val_f : ℚ := (old_val : ℚ) + (diff : ℚ) * interpolate_fraction
  trunc_toward_zero new_val_f

/-- The value the specification describes for an interior output frame
(spec §4.5 and claim C2): linear interpolation between the
sign/scale-converted raw samples at indices `floor(index_f)` and
`floor(index_f) + 1`, weighted by the fractional part of `index_f`.
This follows the claim's words and exists only for comparison with
`makewav_frame_val`. -/
def claimed_interp_frame_val (Data : List Nat) (nfc n : Nat) : Int :=
  let index_f : ℚ := ((n : ℚ) / ((nfc - 1 : Nat) : ℚ)) * ((Data.length - 1 : Nat) : ℚ)
  let index : Nat := ⌊index_f⌋₊
  let interpolate_fraction : ℚ := index_f - (index : ℚ)
  let old_val : Int := byte_to_int16 (Data.getD index 0)
  let old_val_next : Int := byte_to_int16 (Data.getD (index + 1) 0)
  let diff : Int := old_val_next - old_val
  let new_val_f : ℚ := (old_val : ℚ) + (diff : ℚ) * interpolate_fraction
  trunc_toward_zero new_val_f

/-! ## The loader (`load_modfile`, `expected_filesizes`, lines 229-462) -/

/-- The metadata of a module available once all structural decoding
(title, instrument metadata, order table, patterns) has succeeded, as
used by `expected_filesizes` and by the sample-loading tail of
`load_modfile`.  `SampleLengths` lists the declared word-lengths of the
real instruments, `modfile.Samples[1:]` in source order;
`FormatPresent` is `modfile.Format != ""`. -/
structure ModMeta where
  SampleCount : Nat
  ChannelCount : Nat
  FormatPresent : Bool
  NumPatterns : Nat
  SampleLengths : List Nat
  Filesize : Int
deriving Repr, DecidableEq

/-- `expected_filesizes` (`tracker.go` lines 422-462): the small
candidate (blank samples occupy 0 bytes) and the large candidate
(blank samples occupy 2 bytes each). -/
def expected_filesizes (m : ModMeta) : Int × Int :=
  let blank_samples : Int := (m.SampleLengths.countP (fun l => l == 0) : Int)
  let naive : Int :=
    20 + 30 * ((m.SampleCount : Int) - 1)
      + 2 + 128 + 4
      + (m.ChannelCount : Int) * 64 * 4 * (m.NumPatterns : Int)
      + (m.SampleLengths.map (fun l => (l : Int) * 2)).sum
  let naive := if m.FormatPresent then naive else naive - 4
  (naive, naive + blank_samples * 2)

/-- The blank-sample length correction of `load_modfile` (`tracker.go`
lines 362-366): a declared length of 0 becomes 1 exactly when the real
file size equals the large candidate. -/
def corrected_length (m : ModMeta) (len : Nat) : Nat :=
  if len = 0 ∧ m.Filesize = (expected_filesizes m).2 then 1 else len

/-- The tail of `load_modfile` after structural decoding (`tracker.go`
lines 352-373): fail with the size-mismatch error when the real file
size matches neither candidate, otherwise read each sample's waveform
as `corrected length * 2` bytes; the result lists the byte count read
for each real instrument. -/
def load_modfile_tail (m : ModMeta) : Except String (List Nat) :=
  if (expected_filesizes m).1 ≠ m.Filesize ∧ (expected_filesizes m).2 ≠ m.Filesize then
    Except.error "Filesize mismatch"
  else
    Except.ok (m.SampleLengths.map (fun len => corrected_length m len * 2))

/-- The order-table decoding of `load_modfile` (`tracker.go` lines
293-314): 128 table bytes are always read; entry `n` is stored in the
table when `n < positions`; when `positions` exceeds 128 the remaining
table slots keep their zero initial value (`make([]int, positions)`).
`bytes` is the list of the 128 raw table bytes. -/
def table_entries (bytes : List Nat) (positions : Nat) : List Nat :=
  bytes.take positions ++ List.replicate (positions - 128) 0

/-- `highest_pattern` of `load_modfile` (`tracker.go` lines 295-310):
the running maximum (starting from 0) over the table bytes that are
stored into the table. -/
def highest_pattern (bytes : List Nat) (positions : Nat) : Nat :=
  (bytes.take positions).foldl max 0

/-- The number of patterns allocated and decoded by `load_modfile`
(`tracker.go` lines 332-348): `make([]*Pattern, highest_pattern + 1)`,
each fully decoded. -/
def num_patterns (bytes : List Nat) (positions : Nat) : Nat :=
  highest_pattern bytes positions + 1

/-! ## The sequencing loop (`generate_wav`, lines 592-724) -/

/-- A pattern: 64 rows of per-channel notes (`tracker.go` lines 65-67). -/
structure Pattern where
  Lines : List (List Note)
deriving Repr, DecidableEq

/-- The parts of a parsed `Modfile` (`tracker.go` lines 15-25) that
drive the sequencing loop: the order table and the pattern list. -/
structure Modfile where
  Table : List Nat
  Patterns : List Pattern
deriving Repr, DecidableEq

/-- The row of notes the sequencer reads in the current step
(`tracker.go` lines 595 and 600):
`modfile.Patterns[modfile.Table[table_index]].Lines[linenum]`. -/
def current_line (m : Modfile) (s : SeqState) : List Note :=
  ((m.Patterns.getD (m.Table.getD s.table_index 0) ⟨[]⟩).Lines.getD s.linenum [])

/-- One iteration of the sequencing loop of `generate_wav` restricted
to the control state (`tracker.go` lines 600-646 and 699-722): scan the
current row's notes for control effects, then perform the end-of-row
advance.  The omitted middle part (lines 648-697) renders
`row_frame_count` audio frames; it reads the control state but only
writes per-channel playback state and audio buffers, so the control
state evolves exactly as modelled here. -/
def row_step (m : Modfile) (s : SeqState) : SeqState :=
  advance (scan_line s (current_line m s))

/-! ## C1: the note trigger -/

/-- C1, counterexample: a note with a nonzero instrument slot (2) but a
zero pitch period does not set the channel's active instrument — the
slot assignment of `generate_wav` is nested inside the
`note.Period != 0` branch, so the claim's "regardless of whether the
note's pitch period is zero" fails. -/
theorem c1_counterexample :
    Note.Sample ⟨2, 0, 0, 0⟩ ≠ 0 ∧
      (apply_note_trigger ⟨1, 440, 9⟩ ⟨2, 0, 0, 0⟩).Sample ≠ 2 := by
  decide

/-- C1, amended: in every sequencer step, a note with a nonzero pitch
period sets the channel's pitch, resets its playback position to 0 and,
only when the instrument slot is also nonzero, sets the active
instrument; a note with a zero pitch period leaves the whole channel
state unchanged, even when its instrument slot is nonzero. -/
theorem c1_note_trigger (c : Channel) (note : Note) :
    (note.Period ≠ 0 →
      apply_note_trigger c note =
        { Sample := if note.Sample ≠ 0 then note.Sample else c.Sample
          Period := note.Period
          SamplePosition := 0 })
    ∧ (note.Period = 0 → apply_note_trigger c note = c) := by
  constructor
  · intro h
    simp [apply_note_trigger, h]
  · intro h
    simp [apply_note_trigger, h]

/-- C1, witness: the amended trigger behaviour at concrete inputs. -/
theorem c1_note_trigger_witness :
    apply_note_trigger ⟨1, 0, 5⟩ ⟨2, 428, 0, 0⟩ = ⟨2, 428, 0⟩ ∧
      apply_note_trigger ⟨1, 0, 5⟩ ⟨2, 0, 0, 0⟩ = ⟨1, 0, 5⟩ := by
  constructor
  · have h := (c1_note_trigger ⟨1, 0, 5⟩ ⟨2, 428, 0, 0⟩).1 (by decide)
    rw [h]
    decide
  · exact (c1_note_trigger ⟨1, 0, 5⟩ ⟨2, 0, 0, 0⟩).2 rfl

/-! ## C4: pattern break and position jump in the same row -/

/-- C4, counterexample: from order-table index 0, row 5, a row whose
notes schedule both a pattern break (effect 13, target row 7) and a
position jump (effect 11, target index 3) ends with table index 1 and
row 7 — the break handler clears the pending jump flag, so the jump's
target index 3 is never applied and the claim's final state
(index = jump target, row = 0) is wrong. -/
theorem c4_counterexample :
    (advance (scan_line { init_seq_state with linenum := 5 }
        [⟨0, 0, 13, 7⟩, ⟨0, 0, 11, 3⟩])).table_index = 1 ∧
    (advance (scan_line { init_seq_state with linenum := 5 }
        [⟨0, 0, 13, 7⟩, ⟨0, 0, 11, 3⟩])).linenum = 7 ∧
    ¬ ((advance (scan_line { init_seq_state with linenum := 5 }
        [⟨0, 0, 13, 7⟩, ⟨0, 0, 11, 3⟩])).table_index = 3 ∧
       (advance (scan_line { init_seq_state with linenum := 5 }
        [⟨0, 0, 13, 7⟩, ⟨0, 0, 11, 3⟩])).linenum = 0) := by
  decide

/-- C4, amended: if both a pattern break and a position jump are
scheduled within the same row, the break wins and the jump is discarded
entirely: the order-table index advances by one (the break's natural
advance) and the next row is the break's computed target row; a break
target of 64 or more additionally triggers the 64-row wrap, landing on
row 0 with the index advanced once more.  In every case the break
handler clears the pending jump, so the jump's absolute target is never
applied. -/
theorem c4_break_beats_jump (s : SeqState)
    (hb : s.pattern_break_happening = true)
    (_hj : s.position_jump_happening = true) :
    (advance s).table_index =
      (if 64 ≤ s.pattern_break_arg then s.table_index + 2 else s.table_index + 1) ∧
    (advance s).linenum =
      (if 64 ≤ s.pattern_break_arg then 0 else s.pattern_break_arg) ∧
    (advance s).position_jump_happening = false ∧
    (advance s).pattern_break_happening = false := by
  by_cases hw : 64 ≤ s.pattern_break_arg <;> simp [advance, hb, hw]

/-- C4, witness: the amended tie-break at a concrete state with both a
break (target row 100, which wraps) and a jump (target index 5)
pending: the result is index 2 (break advance plus wrap), row 0, and
the jump's target 5 is discarded. -/
theorem c4_break_beats_jump_witness :
    (advance { init_seq_state with
        pattern_break_happening := true
        position_jump_happening := true
        pattern_break_arg := 100
        position_jump_arg := 5 }).table_index = 2 ∧
    (advance { init_seq_state with
        pattern_break_happening := true
        position_jump_happening := true
        pattern_break_arg := 100
        position_jump_arg := 5 }).linenum = 0 ∧
    (advance { init_seq_state with
        pattern_break_happening := true
        position_jump_happening := true
        pattern_break_arg := 100
        position_jump_arg := 5 }).position_jump_happening = false ∧
    (advance { init_seq_state with
        pattern_break_happening := true
        position_jump_happening := true
        pattern_break_arg := 100
        position_jump_arg := 5 }).pattern_break_happening = false := by
  obtain ⟨h1, h2, h3, h4⟩ := c4_break_beats_jump { init_seq_state with
      pattern_break_happening := true
      position_jump_happening := true
      pattern_break_arg := 100
      position_jump_arg := 5 } rfl rfl
  refine ⟨?_, ?_, h3, h4⟩
  · rw [h1]; decide
  · rw [h2]; decide

/-! ## C5: the position-jump loop guard -/

/-- C5 (confirmed): scanning a position-jump effect (code 11) whose
parameter is less than or equal to the current order-table index leaves
the sequencer control state completely unchanged — no jump is
scheduled, so such a jump can never change the order-table index. -/
theorem c5_jump_guard (s : SeqState) (note : Note)
    (h1 : note.Effect = POSITION_JUMP)
    (h2 : note.Parameter ≤ s.table_index) :
    scan_note s note = s := by
  simp [scan_note, h1, POSITION_JUMP, SET_SPEED, PATTERN_BREAK, Nat.not_lt.mpr h2]

/-- C5, witness: a jump to index 0 scanned at index 0 changes nothing. -/
theorem c5_jump_guard_witness :
    scan_note init_seq_state ⟨0, 0, 11, 0⟩ = init_seq_state :=
  c5_jump_guard init_seq_state ⟨0, 0, 11, 0⟩ rfl (by decide)

/-! ## C6: the set-speed effect -/

/-- In `advance`, the latched tempo values are always replaced by the
pending next values, and no later branch of the advance touches them. -/
theorem advance_latches (s : SeqState) :
    (advance s).ticks_per_line = s.next_ticks_per_line ∧
      (advance s).so_called_bpm = s.next_bpm := by
  unfold advance
  dsimp only []
  constructor <;> split <;> split <;> split <;> rfl

/-- C6 (confirmed): for every set-speed effect (code 15), parameter 0
changes nothing; a parameter in 1..31 sets only the pending
ticks-per-row; a parameter of at least 32 sets only the pending tempo;
the latched values used for the current row's duration are never
touched by the scan, and the end-of-row advance then latches the
pending values for the next row's duration computation. -/
theorem c6_set_speed (s : SeqState) (note : Note)
    (h : note.Effect = SET_SPEED) :
    (note.Parameter = 0 → scan_note s note = s)
    ∧ (1 ≤ note.Parameter → note.Parameter ≤ 31 →
        scan_note s note = { s with next_ticks_per_line := note.Parameter })
    ∧ (32 ≤ note.Parameter →
        scan_note s note = { s with next_bpm := note.Parameter })
    ∧ (scan_note s note).ticks_per_line = s.ticks_per_line
    ∧ (scan_note s note).so_called_bpm = s.so_called_bpm
    ∧ (advance (scan_note s note)).ticks_per_line
        = (scan_note s note).next_ticks_per_line
    ∧ (advance (scan_note s note)).so_called_bpm
        = (scan_note s note).next_bpm := by
  refine ⟨?_, ?_, ?_, ?_, ?_, (advance_latches _).1, (advance_latches _).2⟩
  · intro h0
    simp [scan_note, h, SET_SPEED, POSITION_JUMP, PATTERN_BREAK, h0]
  · intro h1 h31
    have h0 : note.Parameter ≠ 0 := by omega
    simp [scan_note, h, SET_SPEED, POSITION_JUMP, PATTERN_BREAK, h0, h31]
  · intro h32
    have h0 : note.Parameter ≠ 0 := by omega
    have h31 : ¬ note.Parameter ≤ 31 := by omega
    simp [scan_note, h, SET_SPEED, POSITION_JUMP, PATTERN_BREAK, h0, h31]
  · rcases Nat.eq_zero_or_pos note.Parameter with h0 | h0
    · simp [scan_note, h, SET_SPEED, POSITION_JUMP, PATTERN_BREAK, h0]
    · by_cases h31 : note.Parameter ≤ 31 <;>
        simp [scan_note, h, SET_SPEED, POSITION_JUMP, PATTERN_BREAK,
          Nat.pos_iff_ne_zero.mp h0, h31]
  · rcases Nat.eq_zero_or_pos note.Parameter with h0 | h0
    · simp [scan_note, h, SET_SPEED, POSITION_JUMP, PATTERN_BREAK, h0]
    · by_cases h31 : note.Parameter ≤ 31 <;>
        simp [scan_note, h, SET_SPEED, POSITION_JUMP, PATTERN_BREAK,
          Nat.pos_iff_ne_zero.mp h0, h31]

/-- C6, witness: a set-speed note with parameter 3 sets only the
pending ticks-per-row at a concrete state. -/
theorem c6_set_speed_witness :
    scan_note init_seq_state ⟨0, 0, 15, 3⟩ =
      { init_seq_state with next_ticks_per_line := 3 } :=
  (c6_set_speed init_seq_state ⟨0, 0, 15, 3⟩ rfl).2.1 (by decide) (by decide)

/-! ## C7: row duration -/

/-- C2: evaluation of the code at the failing input.  For the raw
waveform bytes `[0, 100, 0, 100]` (a declared length of 2 words) and
pitch period 428, `MakeWav` computes 21 output frames; at output frame
`n = 1` the fractional source index is `3/20` with integer part 0, so
the claimed interpolation is between the converted raw samples at
indices 0 and 1 — between 128 and 25828, giving 3983 — but the code's
`byte_to_int16(self.Data[index] + 1)` converts the byte *value at*
index 0 plus one instead of the byte *at index* 0 + 1, interpolating
between 128 and 385 and yielding 166.  The code contradicts its own
variable name `old_val_next` and the interpolation it sets out to
perform; `self.Data[index] + 1` is a slip for `self.Data[index + 1]`. -/
theorem c2_code_divergence :
    new_frame_count 4 428 = 21
    ∧ makewav_frame_val [0, 100, 0, 100] 21 1 = 166
    ∧ claimed_interp_frame_val [0, 100, 0, 100] 21 1 = 3983
    ∧ makewav_frame_val [0, 100, 0, 100] 21 1 ≠
        claimed_interp_frame_val [0, 100, 0, 100] 21 1 := by
  have h0 : ⌊(3/20 : ℚ)⌋₊ = 0 := by
    rw [Nat.floor_eq_iff (by norm_num)]
    norm_num
  have hcode : makewav_frame_val [0, 100, 0, 100] 21 1 = 166 := by
    unfold makewav_frame_val trunc_toward_zero
    norm_num [h0, byte_to_int16, List.getD]
  have hclaim : claimed_interp_frame_val [0, 100, 0, 100] 21 1 = 3983 := by
    unfold claimed_interp_frame_val trunc_toward_zero
    norm_num [h0, byte_to_int16, List.getD]
  refine ⟨by decide, hcode, hclaim, ?_⟩
  rw [hcode, hclaim]
  norm_num

/-! ## C10: the resampler's frame count can underflow -/

/-- C10, counterexample: for a sample of declared length 2 words (4
raw bytes) and pitch period 1 — inside the claim's range 1..4095 — the
computed output frame count is `176400 / 3563219 = 0`, not at least 2,
and the unsigned subtraction `new_frame_count - 1` wraps to
`4294967295`. -/
theorem c10_counterexample :
    new_frame_count (2 * 2) 1 = 0
    ∧ ¬ 2 ≤ new_frame_count (2 * 2) 1
    ∧ u32_sub (new_frame_count (2 * 2) 1) 1 = 4294967295 := by
  decide

/-- C10, amended: for every sample with declared length `L` of at least
2 words whose byte count keeps the 32-bit product in range
(`L ≤ 48695`, i.e. `44100 × 2L < 2^32`), and every pitch period in
41..4095 (rather than the claimed 1..4095), the computed output frame
count is at least 2, so the unsigned subtractions `new_frame_count - 1`
and `new_frame_count - 2` do not wrap around and every frame index
written (the directly-set final frame `new_frame_count - 1` and the
loop indices `n ≤ new_frame_count - 2`) lies within the allocated
waveform. -/
theorem c10_no_underflow (L p : Nat) (hL2 : 2 ≤ L) (hLmax : L ≤ 48695)
    (hp41 : 41 ≤ p) (hpmax : p ≤ 4095) :
    2 ≤ new_frame_count (2 * L) p
    ∧ u32_sub (new_frame_count (2 * L) p) 1 = new_frame_count (2 * L) p - 1
    ∧ u32_sub (new_frame_count (2 * L) p) 2 = new_frame_count (2 * L) p - 2
    ∧ new_frame_count (2 * L) p - 1 < new_frame_count (2 * L) p
    ∧ ∀ n, n ≤ new_frame_count (2 * L) p - 2 → n < new_frame_count (2 * L) p := by
  have hfreq_pos : 0 < freq_of_period p := by
    apply Nat.div_pos (by omega) (by omega)
  have hfreq_le : freq_of_period p ≤ 86907 := by
    calc freq_of_period p = 3563219 / p := rfl
      _ ≤ 3563219 / 41 := Nat.div_le_div_left hp41 (by norm_num)
      _ = 86907 := by norm_num
  have hprod : 44100 * (2 * L) < U32 := by
    unfold U32
    omega
  have hmod : 44100 * (2 * L) % U32 = 44100 * (2 * L) := Nat.mod_eq_of_lt hprod
  have h2 : 2 ≤ new_frame_count (2 * L) p := by
    unfold new_frame_count
    rw [hmod]
    rw [Nat.le_div_iff_mul_le hfreq_pos]
    omega
  have hlt : new_frame_count (2 * L) p < U32 := by
    unfold new_frame_count
    calc 44100 * (2 * L) % U32 / freq_of_period p
        ≤ 44100 * (2 * L) % U32 := Nat.div_le_self _ _
      _ < U32 := Nat.mod_lt _ (by unfold U32; omega)
  refine ⟨h2, ?_, ?_, by omega, fun n hn => by omega⟩
  · unfold u32_sub U32 at *
    omega
  · unfold u32_sub U32 at *
    omega

/-- C10, witness: the amended bounds at length 2 words and period 428
(the tracker's reference pitch), where the output frame count is 21. -/
theorem c10_no_underflow_witness :
    2 ≤ new_frame_count (2 * 2) 428 ∧ (19 : Nat) < new_frame_count (2 * 2) 428 :=
  ⟨(c10_no_underflow 2 428 (by decide) (by decide) (by decide) (by decide)).1,
    (c10_no_underflow 2 428 (by decide) (by decide) (by decide)
      (by decide)).2.2.2.2 19 (by decide)⟩

/-! ## C3: size validation and the blank-sample convention -/

/-- C3 (confirmed): once structural decoding has succeeded,
`load_modfile` returns the size-mismatch error exactly when the real
file size equals neither the small nor the large candidate of
`expected_filesizes`; when it equals the large candidate every
zero-length instrument's waveform is read as 2 bytes, and when it
equals the small candidate as 0 bytes. -/
theorem c3_size_validation (m : ModMeta) :
    ((∃ e, load_modfile_tail m = Except.error e) ↔
      (m.Filesize ≠ (expected_filesizes m).1 ∧
        m.Filesize ≠ (expected_filesizes m).2))
    ∧ (∀ len ∈ m.SampleLengths, len = 0 →
        (m.Filesize = (expected_filesizes m).2 → corrected_length m len * 2 = 2)
        ∧ (m.Filesize = (expected_filesizes m).1 → corrected_length m len * 2 = 0)) := by
  constructor
  · unfold load_modfile_tail
    split
    next h =>
      exact iff_of_true ⟨_, rfl⟩ ⟨Ne.symm h.1, Ne.symm h.2⟩
    next h =>
      refine iff_of_false ?_ ?_
      · rintro ⟨e, he⟩
        cases he
      · rintro ⟨h1, h2⟩
        exact h ⟨Ne.symm h1, Ne.symm h2⟩
  · intro len hmem hlen
    constructor
    · intro hlarge
      unfold corrected_length
      rw [if_pos ⟨hlen, hlarge⟩]
    · intro hsmall
      have hblank : 0 < m.SampleLengths.countP (fun l => l == 0) := by
        rw [List.countP_pos_iff]
        exact ⟨len, hmem, by simp [hlen]⟩
      have hne : (expected_filesizes m).2 ≠ (expected_filesizes m).1 := by
        unfold expected_filesizes
        dsimp only []
        have hcast : (0 : Int) < (m.SampleLengths.countP (fun l => l == 0) : Int) := by
          exact_mod_cast hblank
        omega
      have hcond : ¬ (len = 0 ∧ m.Filesize = (expected_filesizes m).2) := by
        rintro ⟨-, h2⟩
        exact hne (h2.symm.trans hsmall)
      unfold corrected_length
      rw [if_neg hcond, hlen]

set_option maxRecDepth 8000 in
/-- C3, witness: a module with one blank instrument (the small and
large candidates are 1624 and 1626) whose real size is the large
candidate reads that instrument's waveform as 2 bytes. -/
theorem c3_size_validation_witness :
    corrected_length ⟨16, 4, false, 1, [0], 1626⟩ 0 * 2 = 2 :=
  ((c3_size_validation ⟨16, 4, false, 1, [0], 1626⟩).2 0 (by decide) rfl).1 (by decide)

/-! ## C9: every order-table entry indexes an allocated pattern -/

/-- Folding `max` over a list never goes below the seed. -/
theorem le_foldl_max (l : List Nat) (a : Nat) : a ≤ l.foldl max a := by
  induction l generalizing a with
  | nil => exact le_rfl
  | cons b t ih =>
    calc a ≤ max a b := le_max_left a b
      _ ≤ t.foldl max (max a b) := ih (max a b)

/-- Every member of a list is at most the fold of `max` over it. -/
theorem mem_le_foldl_max (l : List Nat) (a x : Nat) (hx : x ∈ l) :
    x ≤ l.foldl max a := by
  induction l generalizing a with
  | nil => cases hx
  | cons b t ih =>
    rcases List.mem_cons.mp hx with rfl | hxt
    · calc x ≤ max a x := le_max_right a x
        _ ≤ t.foldl max (max a x) := le_foldl_max t (max a x)
    · exact ih (max a b) hxt

/-- C9 (confirmed): after a successful parse, every entry of the order
table is strictly below the number of allocated patterns
(`highest_pattern + 1`), both entry-wise and through the positional
`getD` lookup the sequencer performs, so
`Patterns[Table[table_index]]` is in bounds for every `table_index`
within the table. -/
theorem c9_table_in_bounds (bytes : List Nat) (positions : Nat)
    (_hlen : bytes.length = 128) :
    (∀ x ∈ table_entries bytes positions, x < num_patterns bytes positions)
    ∧ (∀ ti, ti < (table_entries bytes positions).length →
        (table_entries bytes positions).getD ti 0 < num_patterns bytes positions) := by
  have hmem : ∀ x ∈ table_entries bytes positions, x < num_patterns bytes positions := by
    intro x hx
    unfold table_entries at hx
    rcases List.mem_append.mp hx with h | h
    · have hle := mem_le_foldl_max (bytes.take positions) 0 x h
      unfold num_patterns highest_pattern
      omega
    · have hx0 := List.eq_of_mem_replicate h
      unfold num_patterns
      omega
  refine ⟨hmem, fun ti hti => ?_⟩
  have : (table_entries bytes positions).getD ti 0 ∈ table_entries bytes positions := by
    rw [List.getD_eq_getElem _ _ hti]
    exact List.getElem_mem hti
  exact hmem _ this

/-- C9, witness: a table region starting `5, 0, 0, ...` with position
count 2 yields the table `[5, 0]` and 6 allocated patterns; the first
looked-up entry is in bounds. -/
theorem c9_table_in_bounds_witness :
    (table_entries (5 :: List.replicate 127 0) 2).getD 0 0 <
      num_patterns (5 :: List.replicate 127 0) 2 :=
  (c9_table_in_bounds (5 :: List.replicate 127 0) 2 (by simp)).2 0
    (by simp [table_entries])

/-! ## C8: termination of the sequencing loop -/

/-- The effect scan of a single note never changes the order-table
index or the row number, and it preserves the invariant that a pending
position jump always targets a strictly larger order-table index (the
guard at `tracker.go` line 631 only schedules a jump when
`note.Parameter > table_index`). -/
theorem scan_note_control (s : SeqState) (n : Note) :
    (scan_note s n).table_index = s.table_index ∧
    (scan_note s n).linenum = s.linenum ∧
    ((s.position_jump_happening = true → s.table_index < s.position_jump_arg) →
      (scan_note s n).position_jump_happening = true →
      (scan_note s n).table_index < (scan_note s n).position_jump_arg) := by
  by_cases h15 : n.Effect = 15
  · have h11 : ¬ n.Effect = 11 := by omega
    have h13 : ¬ n.Effect = 13 := by omega
    by_cases hv0 : n.Parameter = 0
    · simp [scan_note, SET_SPEED, POSITION_JUMP, PATTERN_BREAK, h15, h11, h13, hv0]
    · by_cases hv31 : n.Parameter ≤ 31 <;>
        simp [scan_note, SET_SPEED, POSITION_JUMP, PATTERN_BREAK, h15, h11, h13, hv0, hv31]
  · by_cases h11 : n.Effect = 11
    · have h13 : ¬ n.Effect = 13 := by omega
      by_cases hcond : s.table_index < n.Parameter <;>
        simp [scan_note, SET_SPEED, POSITION_JUMP, PATTERN_BREAK, h15, h11, h13, hcond]
    · by_cases h13 : n.Effect = 13 <;>
        simp [scan_note, SET_SPEED, POSITION_JUMP, PATTERN_BREAK, h15, h11, h13]

/-- The whole-row effect scan preserves the same control facts as a
single-note scan. -/
theorem scan_line_control (line : List Note) (s : SeqState) :
    (scan_line s line).table_index = s.table_index ∧
    (scan_line s line).linenum = s.linenum ∧
    ((s.position_jump_happening = true → s.table_index < s.position_jump_arg) →
      (scan_line s line).position_jump_happening = true →
      (scan_line s line).table_index < (scan_line s line).position_jump_arg) := by
  induction line generalizing s with
  | nil => exact ⟨rfl, rfl, fun h => h⟩
  | cons n t ih =>
    have hstep := scan_note_control s n
    have hrest := ih (scan_note s n)
    refine ⟨hrest.1.trans hstep.1, hrest.2.1.trans hstep.2.1, fun hP => ?_⟩
    exact hrest.2.2 (hstep.2.2 hP)

/-- The end-of-row advance keeps the row number below 64, clears both
pending flags, and either strictly increases the order-table index
(break, taken jump, or 64-row wrap) or keeps it and increments the row
number by exactly one. -/
theorem advance_control (s : SeqState)
    (hline : s.linenum ≤ 63)
    (hjump : s.position_jump_happening = true → s.table_index < s.position_jump_arg) :
    (advance s).linenum ≤ 63 ∧
    (advance s).position_jump_happening = false ∧
    (advance s).pattern_break_happening = false ∧
    (s.table_index < (advance s).table_index ∨
      ((advance s).table_index = s.table_index ∧
        (advance s).linenum = s.linenum + 1)) := by
  cases hb : s.pattern_break_happening
  · cases hj : s.position_jump_happening
    · by_cases hw : 64 ≤ s.linenum + 1 <;>
        simp [advance, hb, hj, hw] <;> try omega
    · have harg := hjump hj
      have hw : ¬ 64 ≤ 0 := by omega
      simp [advance, hb, hj, hw]
      omega
  · by_cases hw : 64 ≤ s.pattern_break_arg <;>
      simp [advance, hb, hw] <;> try omega

/-- The termination measure for the sequencing loop: at most 65 control
steps remain per remaining order-table slot. -/
def seq_measure (L : Nat) (s : SeqState) : Nat :=
  (L - s.table_index) * 65 + (64 - s.linenum)

/-- While the order-table index is still inside the table, one row step
strictly decreases the termination measure and re-establishes the loop
invariant (row below 64, no pending break or jump). -/
theorem row_step_progress (m : Modfile) (s : SeqState)
    (hline : s.linenum ≤ 63)
    (hjf : s.position_jump_happening = false)
    (hlt : s.table_index < m.Table.length) :
    seq_measure m.Table.length (row_step m s) < seq_measure m.Table.length s ∧
    (row_step m s).linenum ≤ 63 ∧
    (row_step m s).position_jump_happening = false ∧
    (row_step m s).pattern_break_happening = false := by
  obtain ⟨hidx, hlin, hjmp⟩ := scan_line_control (current_line m s) s
  have hP : (scan_line s (current_line m s)).position_jump_happening = true →
      (scan_line s (current_line m s)).table_index <
        (scan_line s (current_line m s)).position_jump_arg :=
    hjmp (fun h => absurd h (by rw [hjf]; exact Bool.false_ne_true))
  obtain ⟨h63, hjf2, hbf2, hprog⟩ :=
    advance_control (scan_line s (current_line m s)) (by omega) hP
  have hstep : row_step m s = advance (scan_line s (current_line m s)) := rfl
  rw [hstep]
  refine ⟨?_, h63, hjf2, hbf2⟩
  unfold seq_measure
  rcases hprog with h | ⟨h1, h2⟩ <;> omega

/-- Strong induction on the measure: from any state satisfying the loop
invariant, finitely many row steps take the order-table index past the
end of the table. -/
theorem row_step_reaches_end (m : Modfile) :
    ∀ (k : Nat) (s : SeqState), seq_measure m.Table.length s ≤ k →
      s.linenum ≤ 63 → s.position_jump_happening = false →
      ∃ n, m.Table.length ≤ ((row_step m)^[n] s).table_index := by
  intro k
  induction k with
  | zero =>
    intro s hm h1 h2
    refine ⟨0, ?_⟩
    simp only [Function.iterate_zero, id_eq]
    unfold seq_measure at hm
    omega
  | succ k ih =>
    intro s hm h1 h2
    by_cases hL : m.Table.length ≤ s.table_index
    · exact ⟨0, by simpa using hL⟩
    · obtain ⟨hdec, h63, hj2, _hb2⟩ := row_step_progress m s h1 h2 (by omega)
      obtain ⟨n, hn⟩ := ih (row_step m s) (by omega) h63 hj2
      exact ⟨n + 1, by rw [Function.iterate_succ_apply]; exact hn⟩

/-- C8 (confirmed): for every parsed module with a non-empty order
table, the sequencing loop of `generate_wav` terminates: after finitely
many row steps the order-table index exceeds the last index of the
order table.  Each pattern is left after at most 64 rows via the
natural wrap, a pattern break advances the index by one, and a taken
position jump strictly increases it (guard `note.Parameter >
table_index`), so the measure `(remaining slots) × 65 + (remaining
rows)` strictly decreases every step. -/
theorem c8_termination (m : Modfile) (_h : 0 < m.Table.length) :
    ∃ n, m.Table.length ≤ ((row_step m)^[n] init_seq_state).table_index :=
  row_step_reaches_end m (seq_measure m.Table.length init_seq_state)
    init_seq_state le_rfl (by decide) rfl

/-- C8, witness: a one-entry module whose pattern's first row holds a
pattern break runs the order-table index past the table in one step. -/
theorem c8_termination_witness :
    1 ≤ ((row_step ⟨[0], [⟨[[⟨0, 0, 13, 0⟩]]⟩]⟩)^[1] init_seq_state).table_index := by
  obtain ⟨n, hn⟩ := c8_termination ⟨[0], [⟨[[⟨0, 0, 13, 0⟩]]⟩]⟩ (by decide)
  decide

end Tracker
